import Mathlib

/-!
Verification of the claims in the specification of the AMCECE attendance
dashboard (src/attendance_app.py) against a shallow embedding of that
program in Lean.

Python strings are modelled as lists of Unicode code points (PyStr) and
the ASCII fragment of the Python string operations is embedded explicitly
(the application only handles ASCII identifiers, codes and headers):
code point 32 is the space, 9 the tab, 46 the dot, 47 the slash, 95 the
underscore; 65-90 are the uppercase and 97-122 the lowercase letters.
-/

namespace AttendanceApp

/-- A Python string, as its list of Unicode code points. -/
abbrev PyStr := List Nat

/-- Code points of a Lean string literal, used to write concrete PyStr values. -/
def pstr (s : String) : PyStr := s.data.map Char.toNat

/-- Embedding of Python str.upper restricted to ASCII, one code point. -/
def toUpperC (c : Nat) : Nat := if 97 ≤ c ∧ c ≤ 122 then c - 32 else c

/-- Embedding of Python str.lower restricted to ASCII, one code point. -/
def toLowerC (c : Nat) : Nat := if 65 ≤ c ∧ c ≤ 90 then c + 32 else c

/-- The ASCII whitespace code points stripped by Python str.strip. -/
def isSpaceC (c : Nat) : Bool := c = 32 || c = 9 || c = 10 || c = 11 || c = 12 || c = 13

/-- Embedding of Python str.strip with no argument: remove leading and
trailing whitespace. -/
def strip (s : PyStr) : PyStr :=
  ((s.dropWhile isSpaceC).reverse.dropWhile isSpaceC).reverse

/-- Embedding of Python str.lower (ASCII fragment). -/
def lower (s : PyStr) : PyStr := s.map toLowerC

/-- Embedding of Python str.upper (ASCII fragment). -/
def upper (s : PyStr) : PyStr := s.map toUpperC

/-- Embedding of Python s.replace(a, b) for single-character a and b. -/
def replaceC (a b : Nat) (s : PyStr) : PyStr := s.map (fun c => if c = a then b else c)

/-- Embedding of Python s.replace(a, "") for a single-character a. -/
def removeC (a : Nat) (s : PyStr) : PyStr := s.filter (fun c => c ≠ a)

/-- Embeds sanitize_key (attendance_app.py lines 66-69):
str(val).strip().upper().replace(".", "_").replace("/", "_").replace(" ", "").
The val-is-falsy early return coincides with the main path on strings, since
every operation maps the empty string to the empty string. -/
def sanitize_key (s : PyStr) : PyStr :=
  removeC 32 (replaceC 47 95 (replaceC 46 95 (upper (strip s))))

example : sanitize_key (pstr " a.b/c d ") = pstr "A_B_CD" := by decide
example : sanitize_key (pstr "") = pstr "" := by decide

/-- ASCII alphanumeric code points, the class a-zA-Z0-9 of the regular
expression in generate_email. -/
def isAlnumC (c : Nat) : Bool :=
  (48 ≤ c && c ≤ 57) || (65 ≤ c && c ≤ 90) || (97 ≤ c && c ≤ 122)

/-- Collapse every run of dots (code point 46) to a single dot, embedding
re.sub of one or more dots by one dot in generate_email. -/
def squeezeDots (l : PyStr) : PyStr :=
  l.foldr (fun c acc => if c = 46 ∧ acc.head? = some 46 then acc else c :: acc) []

/-- Embedding of Python str.strip with a dot argument: remove leading and
trailing dots. -/
def stripDots (s : PyStr) : PyStr :=
  ((s.dropWhile (fun c => c = 46)).reverse.dropWhile (fun c => c = 46)).reverse

/-- Embeds generate_email (attendance_app.py lines 71-78): return the
normalized existing email when it is non-empty and not a nan/none artifact,
otherwise build name@amc.edu from the name with non-alphanumerics turned
into single dots. -/
def generate_email (name existing_email : PyStr) : PyStr :=
  let val := lower (strip existing_email)
  if val ≠ [] ∧ val ≠ pstr "nan" ∧ val ≠ pstr "none" then val
  else
    let clean_name :=
      stripDots (squeezeDots ((lower (strip name)).map
        (fun c => if isAlnumC c then c else 46)))
    clean_name ++ pstr "@amc.edu"

example : generate_email (pstr "J. Doe") (pstr " X@Y.Z ") = pstr "x@y.z" := by decide
example : generate_email (pstr "J.  Doe") (pstr "nan") = pstr "j.doe@amc.edu" := by decide

/-! ## CSV header normalization and the processors (attendance_app.py, section 5) -/

/-- Embeds the column normalization shared by both CSV processors
(lines 187 and 220): str(c).strip().lower().replace(" ", "").replace("_", ""). -/
def normHeader (h : PyStr) : PyStr :=
  removeC 95 (removeC 32 (lower (strip h)))

/-- Embeds the rename table of process_courses_csv (line 188). -/
def renameCourses (c : PyStr) : PyStr :=
  if c = pstr "email" then pstr "facultyemail"
  else if c = pstr "mail" then pstr "facultyemail"
  else if c = pstr "sub" then pstr "subcode"
  else if c = pstr "code" then pstr "subcode"
  else if c = pstr "faculty" then pstr "facultyname"
  else if c = pstr "fac" then pstr "facultyname"
  else if c = pstr "sec" then pstr "section"
  else if c = pstr "semester" then pstr "sem"
  else c

/-- Embeds the rename table of process_students_csv (line 221). -/
def renameStudents (c : PyStr) : PyStr :=
  if c = pstr "sec" then pstr "section"
  else if c = pstr "semester" then pstr "sem"
  else if c = pstr "academic" then pstr "ay"
  else c

/-- A parsed CSV: the header labels and the rows, with the cells of each
row aligned positionally with the header. fillna("") has already been
applied, so missing cells read as the empty string. -/
structure DataFrame where
  header : List PyStr
  rows : List (List PyStr)

/-- The column labels of a courses upload after normalization and renaming. -/
def coursesColumns (df : DataFrame) : List PyStr :=
  (df.header.map normHeader).map renameCourses

/-- The column labels of a students upload after normalization and renaming. -/
def studentsColumns (df : DataFrame) : List PyStr :=
  (df.header.map normHeader).map renameStudents

/-- Embeds row.get(col, default) on a pandas row: the cell under the column
when the column exists, the default otherwise. -/
def cell (cols : List PyStr) (row : List PyStr) (col dflt : PyStr) : PyStr :=
  match cols.indexOf? col with
  | some i => row.getD i []
  | none => dflt

/-- A Courses document as written by process_courses_csv (lines 204-209). -/
structure CourseDocW where
  ay : PyStr
  dept : PyStr
  sem : PyStr
  sect : PyStr
  subcode : PyStr
  subtitle : PyStr
  faculty_id : PyStr
  faculty_name : PyStr
deriving DecidableEq

/-- A Users document as merge-written by process_courses_csv (lines 210-212). -/
structure UserDocW where
  name : PyStr
  role : PyStr
  dept : PyStr
  password : PyStr
deriving DecidableEq

/-- One write of a CSV processor batch against the document store. -/
inductive DbWrite
  | setCourse (id : PyStr) (doc : CourseDocW)
  | mergeUser (id : PyStr) (doc : UserDocW)
  | setStudent (id name dept sem sect ay batch : PyStr)
  | mergeSummaryInit (usn : PyStr) (subjects : List (PyStr × PyStr))
deriving DecidableEq

/-- Embeds one iteration of the row loop of process_courses_csv
(lines 193-214): none when the subcode cell is empty (the row is skipped),
otherwise the log line and the two writes of the row. -/
def courseRow (cols : List PyStr) (row : List PyStr) : Option (PyStr × List DbWrite) :=
  let raw_code := cell cols row (pstr "subcode") []
  if raw_code = [] then none
  else
    let subcode := sanitize_key raw_code
    let ay := strip (cell cols row (pstr "ay") (pstr "2025_26"))
    let dept := strip (upper (cell cols row (pstr "dept") (pstr "ECE")))
    let sem := strip (cell cols row (pstr "sem") (pstr "3"))
    let sect := strip (upper (cell cols row (pstr "section") (pstr "A")))
    let fname := strip (cell cols row (pstr "facultyname") (pstr "Faculty"))
    let femail := generate_email fname (cell cols row (pstr "facultyemail") [])
    let subtitle := cell cols row (pstr "subtitle") subcode
    let cid := ay ++ pstr "_" ++ dept ++ pstr "_" ++ sem ++ pstr "_" ++ sect
      ++ pstr "_" ++ subcode
    some (pstr "Linked " ++ subcode ++ pstr " -> " ++ femail,
      [DbWrite.setCourse cid
        ⟨ay, dept, sem, sect, subcode, subtitle, femail, fname⟩,
       DbWrite.mergeUser femail
        ⟨fname, pstr "Faculty", dept, pstr "password123"⟩])

/-- Embeds process_courses_csv (lines 186-217): normalize and rename the
columns, abort with count 0, the error log and no write when subcode is
missing, otherwise process every row. The batching every 200 rows only
splits the same writes over several commits and is not modelled. -/
def process_courses_csv (df : DataFrame) : Nat × List PyStr × List DbWrite :=
  let cols := coursesColumns df
  if pstr "subcode" ∈ cols then
    let rws := df.rows.filterMap (courseRow cols)
    (rws.length, rws.map (fun e => e.1), (rws.map (fun e => e.2)).flatten)
  else
    (0, [pstr "❌ Error: Missing SubCode"], [])

/-- An existing Courses document as read back by process_students_csv when
building its dept_sem_section course map (lines 225-230). -/
structure CourseRec where
  dept : PyStr
  sem : PyStr
  sect : PyStr
  subcode : PyStr
  subtitle : PyStr
deriving DecidableEq

/-- The dept_sem_section grouping key of process_students_csv (line 228). -/
def courseGroupKey (c : CourseRec) : PyStr :=
  c.dept ++ pstr "_" ++ c.sem ++ pstr "_" ++ c.sect

/-- Embeds one iteration of the row loop of process_students_csv
(lines 232-254): none when the usn cell is empty, otherwise the Students
write plus, when courses exist for the dept_sem_section key, the
Student_Summaries merge write initializing title and zero counters. -/
def studentRow (courses : List CourseRec) (cols : List PyStr) (row : List PyStr) :
    Option (List DbWrite) :=
  let raw_usn := cell cols row (pstr "usn") []
  if raw_usn = [] then none
  else
    let usn := sanitize_key raw_usn
    let dept := strip (upper (cell cols row (pstr "dept") (pstr "ECE")))
    let sem := strip (cell cols row (pstr "sem") (pstr "3"))
    let sec := strip (upper (cell cols row (pstr "section") (pstr "A")))
    let ay := strip (cell cols row (pstr "ay") (pstr "2025_26"))
    let k := dept ++ pstr "_" ++ sem ++ pstr "_" ++ sec
    let matching := courses.filter (fun c => courseGroupKey c = k)
    let updates := matching.map (fun c => (sanitize_key c.subcode, c.subtitle))
    let studentWrite := DbWrite.setStudent usn
      (cell cols row (pstr "name") (pstr "Student")) dept sem sec ay
      (cell cols row (pstr "batch") [])
    some (if updates ≠ [] then [studentWrite, DbWrite.mergeSummaryInit usn updates]
      else [studentWrite])

/-- Embeds process_students_csv (lines 219-257): normalize and rename the
columns, abort with count 0 and no write when usn is missing, otherwise
register every row with a non-empty usn. -/
def process_students_csv (courses : List CourseRec) (df : DataFrame) :
    Nat × List DbWrite :=
  let cols := studentsColumns df
  if pstr "usn" ∈ cols then
    let rws := df.rows.filterMap (studentRow courses cols)
    (rws.length, rws.flatten)
  else
    (0, [])

/-! ## Attendance marking (faculty_dashboard, attendance tab, lines 330-379) -/

/-- A Class_Sessions document as written on submission (lines 364-368).
The wall-clock timestamp field is not modelled. -/
structure SessionRecord where
  course_code : PyStr
  date : PyStr
  period : PyStr
  faculty_id : PyStr
  faculty_name : PyStr
  total_students : Nat
  absentees : List PyStr
deriving DecidableEq

/-- Embeds the storage key of line 344:
session_id = date + underscore + subcode + underscore + section + underscore + period. -/
def session_id (date subcode sect period : PyStr) : PyStr :=
  date ++ pstr "_" ++ subcode ++ pstr "_" ++ sect ++ pstr "_" ++ period

/-- A document collection, as the list of its (id, document) pairs. -/
abbrev Store (α : Type) := List (PyStr × α)

/-- Firestore document set: the new document replaces any document already
stored under the same id. -/
def setDoc {α : Type} (k : PyStr) (v : α) (st : Store α) : Store α :=
  (k, v) :: st.filter (fun e => e.1 ≠ k)

/-- Firestore document get: the document stored under the id, if any. -/
def getDoc {α : Type} (k : PyStr) (st : Store α) : Option α :=
  (st.find? (fun e => e.1 = k)).map (fun e => e.2)

/-- The number of records stored under an id. -/
def countKey {α : Type} (k : PyStr) (st : Store α) : Nat :=
  st.countP (fun e => e.1 = k)

/-- The database state touched by an attendance submission: the
Class_Sessions collection and the Student_Summaries per-subject fields
(usn and sanitized subject code index the title, total and attended
entries of the summary document). -/
structure AppState where
  sessions : Store SessionRecord
  titles : PyStr → PyStr → PyStr
  totals : PyStr → PyStr → Nat
  attended : PyStr → PyStr → Nat

/-- Point update of a doubly indexed map. -/
def upd2 {α : Type} (f : PyStr → PyStr → α) (u k : PyStr) (v : α) :
    PyStr → PyStr → α :=
  fun a b => if a = u ∧ b = k then v else f a b

/-- The faculty user performing the submission. -/
structure FacultyUser where
  id : PyStr
  name : PyStr

/-- A marked roster: each student usn of the class with the value of its
presence checkbox (line 359). -/
abbrev Roster := List (PyStr × Bool)

/-- Embeds the absentee computation of line 362: the students whose
checkbox is unchecked. -/
def absenteesOf (roster : Roster) : List PyStr :=
  (roster.filter (fun e => !e.2)).map (fun e => e.1)

/-- The session record written on submission (lines 364-368). -/
def mkSessionRecord (course : CourseDocW) (user : FacultyUser)
    (date period : PyStr) (roster : Roster) : SessionRecord :=
  { course_code := course.subcode
    date := date
    period := period
    faculty_id := user.id
    faculty_name := user.name
    total_students := roster.length
    absentees := absenteesOf roster }

/-- Embeds the per-student aggregate update loop (lines 371-375): for every
roster student set the title and increment the total, and increment
attended when the student is not in the absentees list. -/
def applyRosterIncrements (sub_key subtitle : PyStr) (absentees : List PyStr)
    (roster : Roster) (st : AppState) : AppState :=
  roster.foldl (fun s e =>
    let s1 := { s with
      titles := upd2 s.titles e.1 sub_key subtitle
      totals := upd2 s.totals e.1 sub_key (s.totals e.1 sub_key + 1) }
    if e.1 ∈ absentees then s1
    else { s1 with attended := upd2 s1.attended e.1 sub_key (s1.attended e.1 sub_key + 1) }) st

/-- Embeds one attendance form submission (lines 344-379): the session
record is always written under the deterministic session_id; the aggregate
increments run only when the session was not already marked. -/
def submitAttendance (st : AppState) (course : CourseDocW) (user : FacultyUser)
    (date period : PyStr) (roster : Roster) : AppState :=
  let sid := session_id date course.subcode course.sect period
  let already_marked := (getDoc sid st.sessions).isSome
  let absentees := absenteesOf roster
  let record := mkSessionRecord course user date period roster
  let st1 := { st with sessions := setDoc sid record st.sessions }
  if already_marked then st1
  else applyRosterIncrements (sanitize_key course.subcode) course.subtitle
    absentees roster st1

/-- Embeds the Present column of the faculty history tab (lines 394-400):
total_students, replaced by a roster-size fallback when it is zero, minus
the number of absentees. -/
def historyPresent (rec : SessionRecord) (fallbackTotal : Nat) : Nat :=
  (if rec.total_students = 0 then fallbackTotal else rec.total_students)
    - rec.absentees.length

/-! ## Sign-in (main, lines 586-630) -/

/-- A Users document as read by the sign-in handler. -/
structure UserDoc where
  name : PyStr
  role : PyStr
  password : PyStr
deriving DecidableEq

/-- Document lookup in the Users collection. -/
def lookupUser (users : Store UserDoc) (k : PyStr) : Option UserDoc :=
  getDoc k users

/-- The outcome of one sign-in attempt. -/
inductive LoginResult
  | emptyId
  | adminSession
  | success (finalId : PyStr) (user : UserDoc)
  | incorrectPassword
  | notFound
deriving DecidableEq

/-- Embeds the password comparison of lines 618-625: plaintext equality of
the stored password field against the entered password. -/
def checkPassword (u : UserDoc) (finalId pwd : PyStr) : LoginResult :=
  if u.password = pwd then LoginResult.success finalId u
  else LoginResult.incorrectPassword

/-- Embeds the Sign In handler (lines 589-627), with uid and pwd already
stripped as at lines 586-587: empty uid warns and returns; the fixed admin
pair opens the admin session; otherwise the Users collection is probed
under the lowercased, sanitized and verbatim forms of uid in that order
and the first hit has its plaintext password compared. -/
def signIn (users : Store UserDoc) (uid pwd : PyStr) : LoginResult :=
  if uid = [] then LoginResult.emptyId
  else if uid = pstr "admin" ∧ pwd = pstr "admin123" then LoginResult.adminSession
  else
    let v1 := lower uid
    let v2 := sanitize_key uid
    let v3 := uid
    match lookupUser users v1 with
    | some u => checkPassword u v1 pwd
    | none =>
      match lookupUser users v2 with
      | some u => checkPassword u v2 pwd
      | none =>
        match lookupUser users v3 with
        | some u => checkPassword u v3 pwd
        | none => LoginResult.notFound

/-- The first Users document found under the three normalizations of uid,
in the order lowercased, sanitized, verbatim, together with the id under
which it was found. Stated from the claim, for comparison with signIn. -/
def firstHit (users : Store UserDoc) (uid : PyStr) : Option (PyStr × UserDoc) :=
  (([lower uid, sanitize_key uid, uid]).filterMap
    (fun k => (lookupUser users k).map (fun u => (k, u)))).head?

/-- The sign-in outcome as the claim describes it: success exactly when the
first document found under the three normalizations stores a password
exactly equal to the entered one, Incorrect Password on a first hit with a
different stored password, and no session otherwise. -/
def signInSpec (users : Store UserDoc) (uid pwd : PyStr) : LoginResult :=
  match firstHit users uid with
  | some (finalId, u) =>
    if u.password = pwd then LoginResult.success finalId u
    else LoginResult.incorrectPassword
  | none => LoginResult.notFound

/-! ## Attendance percentage (lines 160-164 and 555-558) -/

/-- Round-half-to-even on a rational, the semantics of the Python built-in
round to zero decimal places. -/
def pyRound0 (q : ℚ) : ℤ :=
  let f := ⌊q⌋
  let r := q - f
  if r < 1/2 then f
  else if 1/2 < r then f + 1
  else if Even f then f else f + 1

/-- Python round(x, 1) on a rational. -/
def pyRound1 (q : ℚ) : ℚ := (pyRound0 (q * 10) : ℚ) / 10

/-- Embeds the percentage of the consolidated report (lines 161-163):
100.0 when the total is 0, otherwise round(att / tot * 100, 1). -/
def reportPct (tot att : Nat) : ℚ :=
  if tot = 0 then 100 else pyRound1 ((att : ℚ) / (tot : ℚ) * 100)

/-- Embeds the percentage of the student portal (lines 556-557):
100.0 when the total is 0, otherwise att / tot * 100 with no rounding. -/
def portalPct (tot att : Nat) : ℚ :=
  if tot = 0 then 100 else (att : ℚ) / (tot : ℚ) * 100

/-! ## CO attainment calculator

Modelled from the spec: no CO/PO attainment code exists under src (the
spec, sections 4.1 and 8, describes it as part of other revisions of this
corpus), so the calculator is modelled from the spec text: marks of exams
without an approved question paper are discarded; per student and course
outcome an obtained sum and a maximum sum are accumulated over the
questions found in the exam pattern; the pass fraction of a CO counts,
among students with a non-zero maximum, those scoring at least 60 percent
of their own maximum; fixed thresholds map the fraction to a level and COs
with no eligible student are omitted. -/

/-- Modelled from the spec: one question of a question-paper pattern, with
its mapped course outcome and maximum marks (marks are whole numbers, as in
the spec examples). -/
structure Question where
  qid : Nat
  co : Nat
  maxMarks : Nat
deriving DecidableEq

/-- Modelled from the spec: one exam of a subject, with its pattern, its
approval status, and its mark records as (student, scores) with scores a
list of (question id, obtained marks). -/
structure ExamData where
  pattern : List Question
  approved : Bool
  marks : List (Nat × List (Nat × Nat))

/-- Modelled from the spec: the approved exams. Marks of exams with no
approved paper are discarded from consideration. -/
def approvedExams (exams : List ExamData) : List ExamData :=
  exams.filter (fun e => e.approved)

/-- Modelled from the spec: question lookup in a pattern; a question id
absent from the pattern is silently skipped by the accumulation. -/
def lookupQ (pattern : List Question) (q : Nat) : Option Question :=
  pattern.find? (fun e => e.qid = q)

/-- Modelled from the spec: the students appearing in the considered marks. -/
def subjectStudents (exams : List ExamData) : List Nat :=
  (((approvedExams exams).map (fun e => e.marks.map (fun m => m.1))).flatten).dedup

/-- Modelled from the spec: the obtained sum of one student for one course
outcome, over all approved exams and all scores whose question is found in
the pattern and mapped to that outcome. -/
def coObtained (exams : List ExamData) (student co : Nat) : Nat :=
  (((approvedExams exams).map (fun e =>
    ((e.marks.filter (fun m => m.1 = student)).map (fun m =>
      (m.2.map (fun sc =>
        match lookupQ e.pattern sc.1 with
        | some q => if q.co = co then sc.2 else 0
        | none => 0)).sum)).sum)).sum)

/-- Modelled from the spec: the maximum sum of one student for one course
outcome, accumulated from the pattern maxima of the questions found. -/
def coMax (exams : List ExamData) (student co : Nat) : Nat :=
  (((approvedExams exams).map (fun e =>
    ((e.marks.filter (fun m => m.1 = student)).map (fun m =>
      (m.2.map (fun sc =>
        match lookupQ e.pattern sc.1 with
        | some q => if q.co = co then q.maxMarks else 0
        | none => 0)).sum)).sum)).sum)

/-- Modelled from the spec: the students with a non-zero maximum for the
outcome, the denominator population of the pass fraction. -/
def eligibleStudents (exams : List ExamData) (co : Nat) : List Nat :=
  (subjectStudents exams).filter (fun st => coMax exams st co ≠ 0)

/-- Modelled from the spec: the eligible students scoring at least 60
percent of their own maximum for the outcome; 10 * obtained is at least
6 * maximum exactly when obtained is at least 60 percent of maximum. -/
def passingStudents (exams : List ExamData) (co : Nat) : List Nat :=
  (eligibleStudents exams co).filter
    (fun st => 10 * coObtained exams st co ≥ 6 * coMax exams st co)

/-- Modelled from the spec: the pass fraction of a course outcome, as an
exact rational. -/
def passFraction (exams : List ExamData) (co : Nat) : ℚ :=
  ((passingStudents exams co).length : ℚ) / ((eligibleStudents exams co).length : ℚ)

/-- Modelled from the spec: the fixed thresholds mapping a pass fraction to
an integer attainment level, in fraction-free form over the passing and
eligible counts: 10 * passers at least 7 * eligible is the pass fraction
being at least 70 percent, and so on. -/
def attainmentLevel (passers eligible : Nat) : Nat :=
  if 10 * passers ≥ 7 * eligible then 3
  else if 10 * passers ≥ 6 * eligible then 2
  else if 2 * passers ≥ eligible then 1
  else 0

/-- Modelled from the spec: the CO attainment result over outcomes CO1 to
CO6, omitting every outcome with no eligible student. -/
def coAttainment (exams : List ExamData) : List (Nat × Nat) :=
  (List.range 6).filterMap (fun i =>
    let co := i + 1
    if (eligibleStudents exams co).length = 0 then none
    else some (co, attainmentLevel (passingStudents exams co).length
      (eligibleStudents exams co).length))

/-- The synthetic dataset of the claim: one approved paper mapping Q1 to
CO1 (max 10) and Q2 to CO2 (max 10); student 1 scores Q1=8, Q2=4 and
student 2 scores Q1=5, Q2=9. -/
def synthExam : ExamData :=
  { pattern := [⟨1, 1, 10⟩, ⟨2, 2, 10⟩]
    approved := true
    marks := [(1, [(1, 8), (2, 4)]), (2, [(1, 5), (2, 9)])] }

/-! ## Derived helpers and concrete sample inputs used by the proofs -/

/-- The per-character action of sanitize_key after the strip: uppercase,
then dot to underscore, then slash to underscore (spaces are then removed
by a filter). -/
def gSan (c : Nat) : Nat :=
  let a := toUpperC c
  let b := if a = 46 then 95 else a
  if b = 47 then 95 else b

/-- The relation of two headers differing only in letter case, spaces and
underscores: erasing spaces and underscores and lowercasing makes them
equal. -/
abbrev DiffOnlyCaseSpaceUnderscore (h1 h2 : PyStr) : Prop :=
  lower (removeC 95 (removeC 32 h1)) = lower (removeC 95 (removeC 32 h2))

/-- A header with no whitespace other than the plain space. -/
abbrev SpaceOnlyWhitespace (h : PyStr) : Prop :=
  ∀ c ∈ h, isSpaceC c = true → c = 32

/-- An empty database state. -/
def emptyAppState : AppState :=
  { sessions := []
    titles := fun _ _ => []
    totals := fun _ _ => 0
    attended := fun _ _ => 0 }

/-- A concrete course used by witnesses and counterexamples. -/
def sampleCourse : CourseDocW :=
  { ay := pstr "2025_26"
    dept := pstr "ECE"
    sem := pstr "3"
    sect := pstr "A"
    subcode := pstr "18EC32"
    subtitle := pstr "Networks"
    faculty_id := pstr "fac@amc.edu"
    faculty_name := pstr "Fac" }

/-- A concrete faculty user used by witnesses and counterexamples. -/
def sampleUser : FacultyUser :=
  { id := pstr "fac@amc.edu", name := pstr "Fac" }

/-- A concrete two-student roster: the first student is checked present,
the second is not. -/
def sampleRoster : Roster :=
  [(pstr "1AM23EC001", true), (pstr "1AM23EC002", false)]

/-- The session key of sampleCourse on 2025-10-12, period 1. -/
def sampleSessionId : PyStr :=
  session_id (pstr "2025-10-12") sampleCourse.subcode sampleCourse.sect (pstr "1")

/-- A state in which the sample session has already been marked. -/
def markedAppState : AppState :=
  { emptyAppState with
    sessions := [(sampleSessionId,
      mkSessionRecord sampleCourse sampleUser (pstr "2025-10-12") (pstr "1") sampleRoster)] }

/-- A concrete Users collection with one faculty account. -/
def sampleUsers : Store UserDoc :=
  [(pstr "alice@amc.edu",
    { name := pstr "Alice", role := pstr "Faculty", password := pstr "pw123" })]

/-! ## Helper lemmas on the string embedding -/

theorem gSan_spec (c : Nat) :
    gSan (gSan c) = gSan c ∧ gSan c ≠ 46 ∧ gSan c ≠ 47 ∧
      ¬(97 ≤ gSan c ∧ gSan c ≤ 122) := by
  simp only [gSan, toUpperC]
  split_ifs <;> omega

theorem isSpaceC_eq_false_iff (c : Nat) :
    isSpaceC c = false ↔ c ≠ 32 ∧ c ≠ 9 ∧ c ≠ 10 ∧ c ≠ 11 ∧ c ≠ 12 ∧ c ≠ 13 := by
  simp [isSpaceC]
  tauto

theorem gSan_not_space {c : Nat} (h : isSpaceC c = false) :
    isSpaceC (gSan c) = false := by
  rw [isSpaceC_eq_false_iff] at h ⊢
  simp only [gSan, toUpperC]
  split_ifs <;> omega

theorem head?_dropWhile_false (p : Nat → Bool) (l : PyStr) (c : Nat)
    (h : (l.dropWhile p).head? = some c) : p c = false := by
  induction l with
  | nil => simp at h
  | cons a t ih =>
    rw [List.dropWhile_cons] at h
    by_cases hp : p a
    · rw [if_pos hp] at h
      exact ih h
    · rw [if_neg hp] at h
      simp at h
      rw [← h]
      simpa using hp

theorem dropWhile_eq_self_of_head (p : Nat → Bool) (l : PyStr)
    (h : ∀ c, l.head? = some c → p c = false) : l.dropWhile p = l := by
  cases l with
  | nil => rfl
  | cons a t =>
    rw [List.dropWhile_cons, if_neg]
    simpa using h a rfl

theorem strip_eq_self (l : PyStr)
    (h1 : ∀ c, l.head? = some c → isSpaceC c = false)
    (h2 : ∀ c, l.getLast? = some c → isSpaceC c = false) : strip l = l := by
  unfold strip
  rw [dropWhile_eq_self_of_head _ _ h1]
  rw [dropWhile_eq_self_of_head]
  · exact l.reverse_reverse
  · intro c hc
    rw [List.head?_reverse] at hc
    exact h2 c hc

theorem sanitize_key_pipeline (s : PyStr) :
    sanitize_key s = ((strip s).map gSan).filter (fun c => c ≠ 32) := by
  simp [sanitize_key, removeC, replaceC, upper, gSan, List.map_map]
  rfl

theorem strip_head?_not_space (l : PyStr) (c : Nat)
    (h : (strip l).head? = some c) : isSpaceC c = false := by
  unfold strip at h
  rw [List.head?_reverse] at h
  set d1 := l.dropWhile isSpaceC with hd1
  rcases heq : d1.reverse.dropWhile isSpaceC with _ | ⟨a, t⟩
  · rw [heq] at h
    simp at h
  · rw [heq] at h
    have hsuff : d1.reverse.takeWhile isSpaceC ++ (a :: t) = d1.reverse := by
      rw [← heq]
      exact List.takeWhile_append_dropWhile isSpaceC d1.reverse
    have : (a :: t).getLast? = d1.reverse.getLast? := by
      rw [← hsuff]
      exact (List.getLast?_append_of_ne_nil _ (by simp)).symm
    rw [this, List.getLast?_reverse] at h
    exact head?_dropWhile_false _ _ _ h

theorem strip_getLast?_not_space (l : PyStr) (c : Nat)
    (h : (strip l).getLast? = some c) : isSpaceC c = false := by
  unfold strip at h
  rw [List.getLast?_reverse] at h
  exact head?_dropWhile_false _ _ _ h

theorem mem_sanitize_key {s : PyStr} {c : Nat} (h : c ∈ sanitize_key s) :
    (∃ d, d ∈ strip s ∧ c = gSan d) ∧ c ≠ 32 := by
  rw [sanitize_key_pipeline] at h
  rw [List.mem_filter] at h
  rcases h with ⟨hm, hc⟩
  rcases List.mem_map.mp hm with ⟨d, hd, hgd⟩
  refine ⟨⟨d, hd, hgd.symm⟩, ?_⟩
  simpa using hc

theorem sanitize_key_head?_not_space (s : PyStr) (c : Nat)
    (h : (sanitize_key s).head? = some c) : isSpaceC c = false := by
  rw [sanitize_key_pipeline] at h
  rcases heq : strip s with _ | ⟨a, t⟩
  · rw [heq] at h
    simp at h
  · have ha : isSpaceC a = false := by
      apply strip_head?_not_space s
      rw [heq]
      rfl
    rw [heq] at h
    have hga : isSpaceC (gSan a) = false := gSan_not_space ha
    have hga32 : gSan a ≠ 32 := by
      rw [isSpaceC_eq_false_iff] at hga
      exact hga.1
    simp only [List.map_cons, List.filter_cons] at h
    rw [if_pos (by simpa using hga32)] at h
    simp at h
    rw [← h]
    exact hga

theorem sanitize_key_getLast?_not_space (s : PyStr) (c : Nat)
    (h : (sanitize_key s).getLast? = some c) : isSpaceC c = false := by
  rw [sanitize_key_pipeline] at h
  rw [← List.head?_reverse, ← List.filter_reverse, ← List.map_reverse] at h
  rcases heq : (strip s).reverse with _ | ⟨a, t⟩
  · rw [heq] at h
    simp at h
  · have ha : isSpaceC a = false := by
      apply strip_getLast?_not_space s
      rw [← List.head?_reverse, heq]
      rfl
    rw [heq] at h
    have hga : isSpaceC (gSan a) = false := gSan_not_space ha
    have hga32 : gSan a ≠ 32 := by
      rw [isSpaceC_eq_false_iff] at hga
      exact hga.1
    simp only [List.map_cons, List.filter_cons] at h
    rw [if_pos (by simpa using hga32)] at h
    simp at h
    rw [← h]
    exact hga

/-! ## Claim theorems -/

/-- Claim C10: sanitize_key is idempotent, and its output contains no dot
(46), no slash (47), no space (32) and no lowercase ASCII letter (97-122),
so keys built from sanitized components are stable under re-sanitization. -/
theorem c10_sanitize_key_idempotent (s : PyStr) :
    sanitize_key (sanitize_key s) = sanitize_key s ∧
      ∀ c ∈ sanitize_key s, c ≠ 46 ∧ c ≠ 47 ∧ c ≠ 32 ∧ ¬(97 ≤ c ∧ c ≤ 122) := by
  have hmem : ∀ c ∈ sanitize_key s, c ≠ 46 ∧ c ≠ 47 ∧ c ≠ 32 ∧ ¬(97 ≤ c ∧ c ≤ 122) := by
    intro c hc
    rcases mem_sanitize_key hc with ⟨⟨d, _, hcd⟩, h32⟩
    rcases gSan_spec d with ⟨_, h46, h47, hlow⟩
    subst hcd
    exact ⟨h46, h47, h32, hlow⟩
  refine ⟨?_, hmem⟩
  have hstrip : strip (sanitize_key s) = sanitize_key s :=
    strip_eq_self _ (sanitize_key_head?_not_space s) (sanitize_key_getLast?_not_space s)
  rw [sanitize_key_pipeline (sanitize_key s), hstrip]
  have hmap : (sanitize_key s).map gSan = sanitize_key s := by
    rw [show sanitize_key s = (sanitize_key s).map id from (List.map_id _).symm]
    rw [List.map_map]
    apply List.map_congr_left
    intro c hc
    rcases mem_sanitize_key hc with ⟨⟨d, _, hcd⟩, _⟩
    subst hcd
    simp [(gSan_spec d).1]
  rw [hmap]
  rw [List.filter_eq_self]
  intro c hc
  simpa using (hmem c hc).2.2.1

/-! ## Helper lemmas on the attendance submission model -/

theorem applyRosterIncrements_sessions (sk st : PyStr) (abs : List PyStr) :
    ∀ (roster : Roster) (s : AppState),
      (applyRosterIncrements sk st abs roster s).sessions = s.sessions := by
  intro roster
  induction roster with
  | nil => intro s; rfl
  | cons e rest ih =>
    intro s
    show (applyRosterIncrements sk st abs rest _).sessions = _
    rw [ih]
    dsimp only
    split <;> rfl

theorem submitAttendance_sessions (st : AppState) (course : CourseDocW)
    (user : FacultyUser) (date period : PyStr) (roster : Roster) :
    (submitAttendance st course user date period roster).sessions =
      setDoc (session_id date course.subcode course.sect period)
        (mkSessionRecord course user date period roster) st.sessions := by
  cases hb : (getDoc (session_id date course.subcode course.sect period) st.sessions).isSome with
  | true => simp [submitAttendance, hb]
  | false =>
    simp only [submitAttendance, hb, Bool.false_eq_true, if_false]
    rw [applyRosterIncrements_sessions]

theorem countKey_setDoc {α : Type} (k : PyStr) (v : α) (st : Store α) :
    countKey k (setDoc k v st) = 1 := by
  unfold countKey setDoc
  rw [List.countP_cons_of_pos _ _ (by simp)]
  rw [List.countP_eq_zero.mpr]
  intro e he
  rcases List.mem_filter.mp he with ⟨_, hne⟩
  simpa using by simpa using hne

theorem getDoc_setDoc_self {α : Type} (k : PyStr) (v : α) (st : Store α) :
    getDoc k (setDoc k v st) = some v := by
  unfold getDoc setDoc
  rw [List.find?_cons_of_pos _ (by simp)]
  rfl

theorem getDoc_setDoc_ne {α : Type} (k kW : PyStr) (v : α) (st : Store α)
    (h : k ≠ kW) : getDoc k (setDoc kW v st) = getDoc k st := by
  unfold getDoc setDoc
  have hne : ¬ (kW = k) := fun hc => h hc.symm
  rw [List.find?_cons_of_neg _ (by simpa using hne)]
  congr 1
  induction st with
  | nil => rfl
  | cons a t ih =>
    rw [List.filter_cons]
    by_cases haw : a.1 = kW
    · rw [if_neg (by simpa using haw)]
      rw [ih]
      rw [List.find?_cons_of_neg _ (by
        simp only [decide_eq_true_eq]
        exact fun hc => hne (haw.symm.trans hc))]
    · rw [if_pos (by simpa using haw)]
      by_cases ha : a.1 = k
      · rw [List.find?_cons_of_pos _ (by simpa using ha),
          List.find?_cons_of_pos _ (by simpa using ha)]
      · rw [List.find?_cons_of_neg _ (by simpa using ha),
          List.find?_cons_of_neg _ (by simpa using ha)]
        exact ih

theorem present_count (roster : Roster) :
    roster.length - (roster.filter (fun e => !e.2)).length =
      roster.countP (fun e => e.2) := by
  induction roster with
  | nil => rfl
  | cons e rest ih =>
    have hle := List.length_filter_le (fun e : PyStr × Bool => !e.2) rest
    by_cases he : e.2 = true
    · rw [List.filter_cons_of_neg (by simp [he]),
        List.countP_cons_of_pos _ _ (by simpa using he), List.length_cons]
      omega
    · rw [List.filter_cons_of_pos (by simp [he]),
        List.countP_cons_of_neg _ _ (by simpa using he), List.length_cons,
        List.length_cons]
      omega

/-- Claim C1: the storage key of a session submission is a deterministic
function of date, subject code, section and period, and a document set
under it overwrites, so after any number of submissions for one slot a
store holding at most one record for that slot still holds at most one. -/
theorem c1_resubmission_overwrites (st : AppState) (course : CourseDocW)
    (user : FacultyUser) (date period : PyStr) (rosters : List Roster)
    (h : countKey (session_id date course.subcode course.sect period) st.sessions ≤ 1) :
    countKey (session_id date course.subcode course.sect period)
      ((rosters.foldl (fun s r => submitAttendance s course user date period r) st).sessions)
      ≤ 1 := by
  induction rosters generalizing st with
  | nil => exact h
  | cons r rest ih =>
    rw [List.foldl_cons]
    apply ih
    rw [submitAttendance_sessions, countKey_setDoc]

/-- Witness for C1: two submissions of the sample roster into the empty
store leave exactly at most one record under the sample session key. -/
theorem c1_witness :
    countKey sampleSessionId emptyAppState.sessions ≤ 1 ∧
      countKey sampleSessionId
        (([sampleRoster, sampleRoster].foldl
          (fun s r => submitAttendance s sampleCourse sampleUser
            (pstr "2025-10-12") (pstr "1") r) emptyAppState).sessions) ≤ 1 :=
  ⟨by decide,
   c1_resubmission_overwrites emptyAppState sampleCourse sampleUser
     (pstr "2025-10-12") (pstr "1") [sampleRoster, sampleRoster] (by decide)⟩

/-- Claim C2: when the session record of the slot already exists, a
submission rewrites only the session log: the titles, the per-subject
total counters and the per-subject attended counters of every student are
unchanged, the slot record is overwritten and every other session record
is untouched. -/
theorem c2_overwrite_skips_increments (st : AppState) (course : CourseDocW)
    (user : FacultyUser) (date period : PyStr) (roster : Roster)
    (h : (getDoc (session_id date course.subcode course.sect period) st.sessions).isSome = true) :
    (submitAttendance st course user date period roster).titles = st.titles ∧
    (submitAttendance st course user date period roster).totals = st.totals ∧
    (submitAttendance st course user date period roster).attended = st.attended ∧
    (submitAttendance st course user date period roster).sessions =
      setDoc (session_id date course.subcode course.sect period)
        (mkSessionRecord course user date period roster) st.sessions ∧
    ∀ k, k ≠ session_id date course.subcode course.sect period →
      getDoc k (submitAttendance st course user date period roster).sessions =
        getDoc k st.sessions := by
  have hs : submitAttendance st course user date period roster = { st with sessions := setDoc (session_id date course.subcode course.sect period) (mkSessionRecord course user date period roster) st.sessions } := by
    simp [submitAttendance, h]
  refine ⟨by rw [hs], by rw [hs], by rw [hs], by rw [hs], ?_⟩
  intro k hk
  rw [hs]
  exact getDoc_setDoc_ne k _ _ st.sessions hk

/-- Witness for C2: overwriting the already marked sample session leaves
the aggregate maps of the state untouched. -/
theorem c2_witness :
    (submitAttendance markedAppState sampleCourse sampleUser
      (pstr "2025-10-12") (pstr "1") sampleRoster).totals = markedAppState.totals ∧
    getDoc (pstr "other") (submitAttendance markedAppState sampleCourse sampleUser
      (pstr "2025-10-12") (pstr "1") sampleRoster).sessions =
      getDoc (pstr "other") markedAppState.sessions :=
  ⟨(c2_overwrite_skips_increments markedAppState sampleCourse sampleUser
      (pstr "2025-10-12") (pstr "1") sampleRoster (by decide)).2.1,
   (c2_overwrite_skips_increments markedAppState sampleCourse sampleUser
      (pstr "2025-10-12") (pstr "1") sampleRoster (by decide)).2.2.2.2
      (pstr "other") (by decide)⟩

/-- Claim C9: the stored session record of a submitted roster lists as
absentees exactly the students with an unchecked box and stores the roster
size as total_students, and the present count of the history tab, total
minus the number of absentees, equals the number of students checked
present (the roster of a submission is never empty, since the form is only
rendered for a non-empty student list). -/
theorem c9_session_record_invariant (st : AppState) (course : CourseDocW)
    (user : FacultyUser) (date period : PyStr) (roster : Roster) (fb : Nat)
    (h : roster ≠ []) :
    getDoc (session_id date course.subcode course.sect period)
      (submitAttendance st course user date period roster).sessions =
      some (mkSessionRecord course user date period roster) ∧
    (mkSessionRecord course user date period roster).absentees =
      (roster.filter (fun e => !e.2)).map (fun e => e.1) ∧
    (mkSessionRecord course user date period roster).total_students = roster.length ∧
    historyPresent (mkSessionRecord course user date period roster) fb =
      roster.countP (fun e => e.2) := by
  refine ⟨?_, rfl, rfl, ?_⟩
  · rw [submitAttendance_sessions]
    exact getDoc_setDoc_self _ _ _
  · simp only [historyPresent, mkSessionRecord, absenteesOf]
    have hlen : roster.length ≠ 0 := by
      simpa using fun hc => h (List.length_eq_zero.mp hc)
    rw [if_neg hlen]
    simp only [List.length_map]
    exact present_count roster

/-- Witness for C9: the sample roster of two students, one present and one
absent, stores one absentee, total 2, and shows one present. -/
theorem c9_witness :
    getDoc sampleSessionId
      (submitAttendance emptyAppState sampleCourse sampleUser
        (pstr "2025-10-12") (pstr "1") sampleRoster).sessions =
      some (mkSessionRecord sampleCourse sampleUser
        (pstr "2025-10-12") (pstr "1") sampleRoster) ∧
    historyPresent (mkSessionRecord sampleCourse sampleUser
      (pstr "2025-10-12") (pstr "1") sampleRoster) 0 =
      sampleRoster.countP (fun e => e.2) :=
  ⟨(c9_session_record_invariant emptyAppState sampleCourse sampleUser
      (pstr "2025-10-12") (pstr "1") sampleRoster 0 (by decide)).1,
   (c9_session_record_invariant emptyAppState sampleCourse sampleUser
      (pstr "2025-10-12") (pstr "1") sampleRoster 0 (by decide)).2.2.2⟩

/-- Claim C5 is refuted: a submission stores a single session-level
attendance record, not one record per student. Submitting the sample
two-student roster writes exactly one key, the key embeds neither student
id, and it is the concatenation of date, subject code, section and period
only, with no student-id component. -/
theorem c5_counterexample :
    (submitAttendance emptyAppState sampleCourse sampleUser
        (pstr "2025-10-12") (pstr "1") sampleRoster).sessions.map (fun e => e.1) =
      [pstr "2025-10-12_18EC32_A_1"] ∧
    sampleRoster.length = 2 ∧
    ¬ (pstr "1AM23EC001" <:+: pstr "2025-10-12_18EC32_A_1") ∧
    ¬ (pstr "1AM23EC002" <:+: pstr "2025-10-12_18EC32_A_1") := by
  refine ⟨by decide, by decide, by decide, by decide⟩

/-- Claim C5 as amended: the storage key of the single session-level
attendance record of a submission is the deterministic underscore
concatenation of date, subject code, section and period, in that order and
with the components used as stored (no sanitization at key construction);
the record is set under that key with document-overwrite semantics, and
per-student presence lives in its absentees field. -/
theorem c5_amended (st : AppState) (course : CourseDocW) (user : FacultyUser)
    (date period : PyStr) (roster : Roster) :
    session_id date course.subcode course.sect period =
      date ++ pstr "_" ++ course.subcode ++ pstr "_" ++ course.sect
        ++ pstr "_" ++ period ∧
    (submitAttendance st course user date period roster).sessions =
      setDoc (session_id date course.subcode course.sect period)
        (mkSessionRecord course user date period roster) st.sessions :=
  ⟨rfl, submitAttendance_sessions st course user date period roster⟩

/-- Claim C3: a courses upload whose normalized and renamed header lacks
subcode aborts with count 0 and the error log before any write, and a
students upload whose normalized and renamed header lacks usn aborts with
count 0 before any write: in both cases the emitted write list is empty. -/
theorem c3_missing_column_aborts :
    (∀ df : DataFrame, pstr "subcode" ∉ coursesColumns df →
      process_courses_csv df = (0, [pstr "❌ Error: Missing SubCode"], [])) ∧
    (∀ (courses : List CourseRec) (df : DataFrame), pstr "usn" ∉ studentsColumns df →
      process_students_csv courses df = (0, [])) := by
  constructor
  · intro df h
    simp [process_courses_csv, h]
  · intro courses df h
    simp [process_students_csv, h]

/-- Witness for C3: a one-column upload named name is missing subcode and
usn, and both processors abort with no write. -/
theorem c3_witness :
    (pstr "subcode" ∉ coursesColumns ⟨[pstr "name"], [[pstr "X"]]⟩ ∧
      process_courses_csv ⟨[pstr "name"], [[pstr "X"]]⟩ =
        (0, [pstr "❌ Error: Missing SubCode"], [])) ∧
    (pstr "usn" ∉ studentsColumns ⟨[pstr "name"], [[pstr "X"]]⟩ ∧
      process_students_csv [] ⟨[pstr "name"], [[pstr "X"]]⟩ = (0, [])) :=
  ⟨⟨by decide, c3_missing_column_aborts.1 ⟨[pstr "name"], [[pstr "X"]]⟩ (by decide)⟩,
   ⟨by decide, c3_missing_column_aborts.2 [] ⟨[pstr "name"], [[pstr "X"]]⟩ (by decide)⟩⟩

/-- Claim C4: a non-admin sign-in attempt behaves exactly as specified:
the Users collection is probed under the lowercased, sanitized and
verbatim forms of the identifier in that order, the attempt succeeds
exactly when the first document found stores a plaintext password equal to
the entered one, a first hit with a different stored password yields
Incorrect Password, and no session is established otherwise. -/
theorem c4_sign_in_matches_spec (users : Store UserDoc) (uid pwd : PyStr)
    (h1 : uid ≠ []) (h2 : ¬(uid = pstr "admin" ∧ pwd = pstr "admin123")) :
    signIn users uid pwd = signInSpec users uid pwd := by
  unfold signIn signInSpec firstHit
  rw [if_neg h1, if_neg h2]
  cases h3 : lookupUser users (lower uid) with
  | some u => simp [h3, checkPassword]
  | none =>
    cases h4 : lookupUser users (sanitize_key uid) with
    | some u => simp [h3, h4, checkPassword]
    | none =>
      cases h5 : lookupUser users uid with
      | some u => simp [h3, h4, h5, checkPassword]
      | none => simp [h3, h4, h5]

/-- Witness for C4: a concrete sign-in attempt over the sample Users
collection, with an uppercased identifier found through lowercasing. -/
theorem c4_witness :
    signIn sampleUsers (pstr "ALICE@amc.edu") (pstr "pw123") =
      signInSpec sampleUsers (pstr "ALICE@amc.edu") (pstr "pw123") :=
  c4_sign_in_matches_spec sampleUsers (pstr "ALICE@amc.edu") (pstr "pw123")
    (by decide) (by decide)

/-- Claim C8 is refuted on the consolidated report: for 1 attended class
out of 3, the reported percentage is the rounded 33.3, which is not
attended divided by total times 100. -/
theorem c8_counterexample :
    reportPct 3 1 = 333/10 ∧
      reportPct 3 1 ≠ ((1 : Nat) : ℚ) / ((3 : Nat) : ℚ) * 100 := by
  have hfl : ⌊(((1 : Nat) : ℚ) / ((3 : Nat) : ℚ) * 100 * 10)⌋ = 333 := by
    rw [Int.floor_eq_iff]
    norm_num
  constructor
  · rw [reportPct, if_neg (by norm_num), pyRound1, pyRound0]
    rw [hfl]
    norm_num
  · rw [reportPct, if_neg (by norm_num), pyRound1, pyRound0]
    rw [hfl]
    norm_num

/-- Claim C8 as amended: the percentage computation is total in both
views; a zero recorded total reports 100.0 with no division, and a
non-zero total reports attended divided by total times 100, exactly in the
student portal and rounded half-to-even to one decimal in the consolidated
report. -/
theorem c8_amended (tot att : Nat) :
    (tot = 0 → reportPct tot att = 100 ∧ portalPct tot att = 100) ∧
    (tot ≠ 0 → portalPct tot att = (att : ℚ) / (tot : ℚ) * 100 ∧
      reportPct tot att = pyRound1 ((att : ℚ) / (tot : ℚ) * 100)) := by
  constructor
  · intro h
    simp [reportPct, portalPct, h]
  · intro h
    simp [reportPct, portalPct, h]

/-- Witness for C8: the zero-total case reports 100 in both views, and a
student attending 1 of 2 classes gets the exact and the rounded half of
100. -/
theorem c8_witness :
    (reportPct 0 7 = 100 ∧ portalPct 0 7 = 100) ∧
      (portalPct 2 1 = ((1 : Nat) : ℚ) / ((2 : Nat) : ℚ) * 100 ∧
        reportPct 2 1 = pyRound1 (((1 : Nat) : ℚ) / ((2 : Nat) : ℚ) * 100)) :=
  ⟨(c8_amended 0 7).1 rfl, (c8_amended 2 1).2 (by decide)⟩

/-! ## Helper lemmas for the header-normalization claim -/

theorem strip_decomposition (l : PyStr) :
    ∃ a b, l = a ++ strip l ++ b ∧ (∀ c ∈ a, isSpaceC c = true) ∧
      (∀ c ∈ b, isSpaceC c = true) := by
  refine ⟨l.takeWhile isSpaceC,
    ((l.dropWhile isSpaceC).reverse.takeWhile isSpaceC).reverse, ?_, ?_, ?_⟩
  · conv_lhs => rw [← List.takeWhile_append_dropWhile isSpaceC l]
    rw [List.append_assoc]
    congr 1
    have hsplit : (l.dropWhile isSpaceC).reverse =
        (l.dropWhile isSpaceC).reverse.takeWhile isSpaceC ++
          (l.dropWhile isSpaceC).reverse.dropWhile isSpaceC :=
      (List.takeWhile_append_dropWhile isSpaceC _).symm
    calc l.dropWhile isSpaceC
        = (l.dropWhile isSpaceC).reverse.reverse := (List.reverse_reverse _).symm
      _ = ((l.dropWhile isSpaceC).reverse.takeWhile isSpaceC ++
            (l.dropWhile isSpaceC).reverse.dropWhile isSpaceC).reverse := by
          rw [← hsplit]
      _ = ((l.dropWhile isSpaceC).reverse.dropWhile isSpaceC).reverse ++
            ((l.dropWhile isSpaceC).reverse.takeWhile isSpaceC).reverse := by
          rw [List.reverse_append]
      _ = strip l ++ ((l.dropWhile isSpaceC).reverse.takeWhile isSpaceC).reverse := rfl
  · intro c hc
    exact List.mem_takeWhile_imp hc
  · intro c hc
    rw [List.mem_reverse] at hc
    exact List.mem_takeWhile_imp hc

theorem filter_strip (p : Nat → Bool) (l : PyStr)
    (hp : ∀ c ∈ l, isSpaceC c = true → p c = false) :
    (strip l).filter p = l.filter p := by
  rcases strip_decomposition l with ⟨a, b, hl, hwa, hwb⟩
  have hsa : ∀ c ∈ a, c ∈ l := by
    intro c hc
    rw [hl]
    simp [hc]
  have hsb : ∀ c ∈ b, c ∈ l := by
    intro c hc
    rw [hl]
    simp [hc]
  have hfa : a.filter p = [] := List.filter_eq_nil_iff.mpr (fun c hc => by
    simp [hp c (hsa c hc) (hwa c hc)])
  have hfb : b.filter p = [] := List.filter_eq_nil_iff.mpr (fun c hc => by
    simp [hp c (hsb c hc) (hwb c hc)])
  conv_rhs => rw [hl]
  rw [List.filter_append, List.filter_append, hfa, hfb]
  simp

theorem removeC_lower (a : Nat) (ha : ∀ c : Nat, toLowerC c = a ↔ c = a)
    (s : PyStr) : removeC a (lower s) = lower (removeC a s) := by
  unfold removeC lower
  rw [List.filter_map]
  congr 1
  apply List.filter_congr
  intro c _
  simp only [Function.comp]
  by_cases hc : c = a
  · simp [hc, (ha a).mpr rfl]
  · have : ¬ toLowerC c = a := fun h => hc ((ha c).mp h)
    simp [hc, this]

theorem toLowerC_eq_32_iff (c : Nat) : toLowerC c = 32 ↔ c = 32 := by
  unfold toLowerC
  split_ifs <;> omega

theorem toLowerC_eq_95_iff (c : Nat) : toLowerC c = 95 ↔ c = 95 := by
  unfold toLowerC
  split_ifs <;> omega

theorem normHeader_of_spaceOnly (h : PyStr) (hw : SpaceOnlyWhitespace h) :
    normHeader h = lower (removeC 95 (removeC 32 h)) := by
  unfold normHeader
  rw [removeC_lower 32 toLowerC_eq_32_iff]
  have h32 : removeC 32 (strip h) = removeC 32 h := by
    apply filter_strip
    intro c hc hspace
    have := hw c hc hspace
    simp [this]
  rw [h32]
  rw [removeC_lower 95 toLowerC_eq_95_iff]

/-- Claim C6 is refuted by headers containing a non-space whitespace
character: the headers _ tab USN and tab usn differ only in case and an
underscore, yet normalize and rename to different column labels, because
the strip step removes the leading tab only when the underscore does not
shield it; in particular only the second is recognized as the usn column. -/
theorem c6_counterexample :
    DiffOnlyCaseSpaceUnderscore (pstr "_\tUSN") (pstr "\tusn") ∧
    renameStudents (normHeader (pstr "_\tUSN")) ≠
      renameStudents (normHeader (pstr "\tusn")) ∧
    normHeader (pstr "\tusn") = pstr "usn" ∧
    normHeader (pstr "_\tUSN") ≠ pstr "usn" := by
  refine ⟨by decide, by decide, by decide, by decide⟩

/-- Claim C6 as amended: for headers whose only whitespace is the plain
space, normalization is exactly lowercasing plus deletion of spaces and
underscores, so two such headers differing only in case, spaces or
underscores normalize identically and are renamed to the same canonical
column by both upload types. -/
theorem c6_amended (h1 h2 : PyStr) (hw1 : SpaceOnlyWhitespace h1)
    (hw2 : SpaceOnlyWhitespace h2) (hd : DiffOnlyCaseSpaceUnderscore h1 h2) :
    normHeader h1 = lower (removeC 95 (removeC 32 h1)) ∧
    normHeader h1 = normHeader h2 ∧
    renameCourses (normHeader h1) = renameCourses (normHeader h2) ∧
    renameStudents (normHeader h1) = renameStudents (normHeader h2) := by
  have e1 := normHeader_of_spaceOnly h1 hw1
  have e2 := normHeader_of_spaceOnly h2 hw2
  have heq : normHeader h1 = normHeader h2 := by
    rw [e1, e2]
    exact hd
  exact ⟨e1, heq, by rw [heq], by rw [heq]⟩

/-- Witness for C6: the headers Sub Code and SUB_CODE differ only in case,
a space and an underscore, and both normalize and rename to subcode. -/
theorem c6_witness :
    normHeader (pstr "Sub Code") = normHeader (pstr "SUB_CODE") ∧
    renameCourses (normHeader (pstr "Sub Code")) =
      renameCourses (normHeader (pstr "SUB_CODE")) :=
  ⟨(c6_amended (pstr "Sub Code") (pstr "SUB_CODE") (by decide) (by decide)
      (by decide)).2.1,
   (c6_amended (pstr "Sub Code") (pstr "SUB_CODE") (by decide) (by decide)
      (by decide)).2.2.1⟩

/-! ## Helper lemmas for the attainment claim -/

theorem threshold_iff (a b p e : Nat) (hb : 0 < b) (he : 0 < e) :
    ((a : ℚ) / (b : ℚ) ≤ (p : ℚ) / (e : ℚ)) ↔ a * e ≤ b * p := by
  rw [div_le_div_iff₀ (by exact_mod_cast hb) (by exact_mod_cast he)]
  rw [show ((a : ℚ) * e = ((a * e : Nat) : ℚ)) by push_cast; ring]
  rw [show ((p : ℚ) * b = ((b * p : Nat) : ℚ)) by push_cast; ring]
  exact Nat.cast_le

theorem attainmentLevel_fraction (p e : Nat) (he : 0 < e) :
    attainmentLevel p e =
      (if (7 : ℚ) / 10 ≤ (p : ℚ) / (e : ℚ) then 3
       else if (6 : ℚ) / 10 ≤ (p : ℚ) / (e : ℚ) then 2
       else if (1 : ℚ) / 2 ≤ (p : ℚ) / (e : ℚ) then 1
       else 0) := by
  have h7 : ((7 : ℚ) / 10 ≤ (p : ℚ) / (e : ℚ)) ↔ 7 * e ≤ 10 * p := by
    exact_mod_cast threshold_iff 7 10 p e (by norm_num) he
  have h6 : ((6 : ℚ) / 10 ≤ (p : ℚ) / (e : ℚ)) ↔ 6 * e ≤ 10 * p := by
    exact_mod_cast threshold_iff 6 10 p e (by norm_num) he
  have h1 : ((1 : ℚ) / 2 ≤ (p : ℚ) / (e : ℚ)) ↔ 1 * e ≤ 2 * p := by
    exact_mod_cast threshold_iff 1 2 p e (by norm_num) he
  rw [one_mul] at h1
  unfold attainmentLevel
  simp only [ge_iff_le, h7, h6, h1]

theorem coAttainment_mem {exams : List ExamData} {co lvl : Nat}
    (h : (co, lvl) ∈ coAttainment exams) :
    (eligibleStudents exams co).length ≠ 0 ∧
      lvl = attainmentLevel (passingStudents exams co).length
        (eligibleStudents exams co).length := by
  unfold coAttainment at h
  rcases List.mem_filterMap.mp h with ⟨i, _, hval⟩
  dsimp only at hval
  by_cases hz : (eligibleStudents exams (i + 1)).length = 0
  · rw [if_pos hz] at hval
    cases hval
  · rw [if_neg hz] at hval
    have hpair := Option.some.inj hval
    have hco : i + 1 = co := congrArg Prod.fst hpair
    have hlv : attainmentLevel (passingStudents exams (i + 1)).length
        (eligibleStudents exams (i + 1)).length = lvl := congrArg Prod.snd hpair
    subst hco
    exact ⟨hz, hlv.symm⟩

/-- Claim C7 is refuted on its own synthetic dataset: student B scores 5
of 10 on the CO1 question, below 60 percent, so the CO1 pass fraction is
one half and the calculator modelled from the spec assigns CO1 level 1,
not level 3. -/
theorem c7_counterexample :
    (coAttainment [synthExam]).lookup 1 = some 1 ∧
      (coAttainment [synthExam]).lookup 1 ≠ some 3 := by
  refine ⟨by decide, by decide⟩

/-- Claim C7 as amended: the calculator maps the pass fraction of every
reported course outcome through the fixed thresholds at least 70 percent
to 3, at least 60 percent to 2, at least 50 percent to 1 and otherwise 0,
and omits every outcome with no eligible student; on the synthetic
dataset of the claim it yields CO1 level 1 (pass fraction one half, since
student B scores 5 of 10 on Q1) and CO2 level 1. -/
theorem c7_amended :
    coAttainment [synthExam] = [(1, 1), (2, 1)] ∧
    (∀ (exams : List ExamData) (co lvl : Nat), (co, lvl) ∈ coAttainment exams →
      (eligibleStudents exams co).length ≠ 0 ∧
        lvl = attainmentLevel (passingStudents exams co).length
          (eligibleStudents exams co).length) ∧
    (∀ (exams : List ExamData) (co : Nat),
      (eligibleStudents exams co).length ≠ 0 →
      attainmentLevel (passingStudents exams co).length
          (eligibleStudents exams co).length =
        (if (7 : ℚ) / 10 ≤ passFraction exams co then 3
         else if (6 : ℚ) / 10 ≤ passFraction exams co then 2
         else if (1 : ℚ) / 2 ≤ passFraction exams co then 1
         else 0)) := by
  refine ⟨by decide, fun exams co lvl h => coAttainment_mem h, ?_⟩
  intro exams co he
  unfold passFraction
  exact attainmentLevel_fraction _ _ (Nat.pos_of_ne_zero he)

/-- Witness for C7: on the synthetic dataset CO1 has eligible students and
its reported level 1 equals the threshold mapping of its pass fraction. -/
theorem c7_witness :
    ((eligibleStudents [synthExam] 1).length ≠ 0 ∧
      1 = attainmentLevel (passingStudents [synthExam] 1).length
        (eligibleStudents [synthExam] 1).length) ∧
    attainmentLevel (passingStudents [synthExam] 1).length
        (eligibleStudents [synthExam] 1).length =
      (if (7 : ℚ) / 10 ≤ passFraction [synthExam] 1 then 3
       else if (6 : ℚ) / 10 ≤ passFraction [synthExam] 1 then 2
       else if (1 : ℚ) / 2 ≤ passFraction [synthExam] 1 then 1
       else 0) :=
  ⟨c7_amended.2.1 [synthExam] 1 1 (by decide),
   c7_amended.2.2 [synthExam] 1 (by decide)⟩

end AttendanceApp
